import Mathlib

/-!
Shallow embedding of the congestion-signal collector of
`adaptive_quic_governor` (crates `ebpf_congestion_signals` and
`ebpf_congestion_signals_ebpf`).

Conventions of the embedding:
- Machine integers are modeled as `Nat`.  A parameter that stands for a
  value of a machine type `uN` is assumed to be `< 2 ^ N`; where that bound
  matters for a theorem it appears as an explicit hypothesis.
- Wrapping `u64` arithmetic (`AtomicU64.fetch_add`, `wrapping_add`, the
  `u64` subtraction and multiplication on the kernel side) carries an
  explicit `% U64`.
- The `f64` divisions of `read_and_reset` are modeled with exact rationals
  `ℚ`.  Theorems rely on the rational average only at concrete values where
  the `f64` computation is exact (every intermediate result representable),
  so the rational model agrees with the floating-point code there.  Range
  bounds quantified over all inputs are stated on the raw integer counters
  instead: `f64` rounding of the derived average is not modeled, and it can
  differ from the exact rational by an ulp.
- The `repr(C)` payload union `EventData` is modeled as a tagged sum.  The
  consuming side (`process_event`) reads exactly the union field selected
  by the validated `event_type` discriminator, and every embedded producer
  constructs the matching variant, so the tagged-sum model coincides with
  the byte-reinterpretation semantics on all events that occur.
-/

namespace AdaptiveQuic

/-- Modulus of `u64` arithmetic. -/
def U64 : Nat := 2 ^ 64

/-- Modulus of `u32` arithmetic. -/
def U32 : Nat := 2 ^ 32

/-- Event type discriminators, `src/ebpf_congestion_signals_ebpf/src/types.rs`
lines 54-59 (mirrored in `src/ebpf_congestion_signals/src/lib.rs` lines 76-80). -/
def EVENT_UDP_SEND : Nat := 1

/-- Discriminator of TCP send records. -/
def EVENT_TCP_SEND : Nat := 2

/-- Discriminator of drop records. -/
def EVENT_QDISC_DROP : Nat := 3

/-- Discriminator of socket-state records. -/
def EVENT_SOCKET_STATE : Nat := 4

/-- Reserved discriminator of softirq-entry; never emitted by any producer. -/
def EVENT_SOFTIRQ_ENTER : Nat := 5

/-- Discriminator of softirq-duration (exit) records. -/
def EVENT_SOFTIRQ_EXIT : Nat := 6

/-- Payload of UDP/TCP send records (`SendMsgData`, types.rs lines 22-28). -/
structure SendMsgData where
  bytes : Nat
  is_tcp : Nat
  socket_id : Nat
  deriving DecidableEq

/-- Payload of drop records (`QdiscData`, types.rs lines 30-36). -/
structure QdiscData where
  dropped : Nat
  backlog_bytes : Nat
  backlog_packets : Nat
  deriving DecidableEq

/-- Payload of socket-state records (`SocketData`, types.rs lines 38-44). -/
structure SocketData where
  wmem_queued : Nat
  sndbuf : Nat
  socket_id : Nat
  deriving DecidableEq

/-- Payload of softirq-duration records (`SoftirqData`, types.rs lines 46-51). -/
structure SoftirqData where
  vec_nr : Nat
  duration_ns : Nat
  deriving DecidableEq

/-- The payload union (`EventData`, types.rs lines 13-20), modeled as a tagged
sum; see the header comment. -/
inductive EventData where
  | sendmsg : SendMsgData → EventData
  | qdisc : QdiscData → EventData
  | socket : SocketData → EventData
  | softirq : SoftirqData → EventData
  deriving DecidableEq

/-- The wire record (`CongestionEvent`, types.rs lines 4-11). -/
structure CongestionEvent where
  timestamp_ns : Nat
  event_type : Nat
  cpu_id : Nat
  data : EventData
  deriving DecidableEq

/-- Read of the union field `data.sendmsg.bytes`; the consuming side performs
it only after validating `event_type ∈ {1, 2}`, where the payload is the
`sendmsg` variant. -/
def EventData.sendmsg_bytes : EventData → Nat
  | .sendmsg d => d.bytes
  | _ => 0

/-- Read of the union field `data.socket.wmem_queued`. -/
def EventData.socket_wmem_queued : EventData → Nat
  | .socket d => d.wmem_queued
  | _ => 0

/-- Read of the union field `data.socket.sndbuf`. -/
def EventData.socket_sndbuf : EventData → Nat
  | .socket d => d.sndbuf
  | _ => 0

/-- Read of the union field `data.softirq.duration_ns`. -/
def EventData.softirq_duration_ns : EventData → Nat
  | .softirq d => d.duration_ns
  | _ => 0

/-- Read of the union field `data.qdisc.dropped`. -/
def EventData.qdisc_dropped : EventData → Nat
  | .qdisc d => d.dropped
  | _ => 0

/-- The six shared atomic counters (`AtomicSignals`,
`src/ebpf_congestion_signals/src/lib.rs` lines 93-100).  Each field holds the
current value of the corresponding `AtomicU64`. -/
structure AtomicSignals where
  send_bytes : Nat
  drops : Nat
  wmem_samples : Nat
  wmem_total : Nat
  softirq_ns : Nat
  event_count : Nat
  deriving DecidableEq

/-- `impl Default for AtomicSignals` (lib.rs lines 102-113): all six counters
start at zero. -/
def AtomicSignals.default : AtomicSignals :=
  { send_bytes := 0, drops := 0, wmem_samples := 0, wmem_total := 0,
    softirq_ns := 0, event_count := 0 }

/-- The aggregated snapshot (`CongestionSignals`, lib.rs lines 83-90);
`avg_wmem_pressure` is `f64` in the source, modeled as `ℚ`. -/
structure CongestionSignals where
  send_bytes : Nat
  drops : Nat
  avg_wmem_pressure : ℚ
  softirq_ns : Nat
  event_count : Nat

/-- `CongestionCollector::process_event` (lib.rs lines 190-216).  Every call
does `event_count.fetch_add(1)`, then dispatches on `event_type`; all
`fetch_add` calls wrap modulo `2 ^ 64`. -/
def process_event (s : AtomicSignals) (e : CongestionEvent) : AtomicSignals :=
  let s1 : AtomicSignals := { s with event_count := (s.event_count + 1) % U64 }
  if e.event_type = EVENT_UDP_SEND ∨ e.event_type = EVENT_TCP_SEND then
    { s1 with send_bytes := (s1.send_bytes + e.data.sendmsg_bytes) % U64 }
  else if e.event_type = EVENT_QDISC_DROP then
    { s1 with drops := (s1.drops + 1) % U64 }
  else if e.event_type = EVENT_SOCKET_STATE then
    if 0 < e.data.socket_sndbuf then
      { s1 with
        wmem_total := (s1.wmem_total +
          ((e.data.socket_wmem_queued * 1000) % U64) / e.data.socket_sndbuf) % U64,
        wmem_samples := (s1.wmem_samples + 1) % U64 }
    else s1
  else if e.event_type = EVENT_SOFTIRQ_EXIT then
    { s1 with softirq_ns := (s1.softirq_ns + e.data.softirq_duration_ns) % U64 }
  else s1

/-- Sequential processing of a list of events by `process_event`. -/
def processEvents (s : AtomicSignals) (l : List CongestionEvent) : AtomicSignals :=
  l.foldl process_event s

/-- `CongestionCollector::read_and_reset` (lib.rs lines 219-240): swap every
counter with zero, return the captured values with the derived average
pressure.  Result: the returned snapshot and the post-call counter state. -/
def read_and_reset (s : AtomicSignals) : CongestionSignals × AtomicSignals :=
  let avg_wmem_pressure : ℚ :=
    if 0 < s.wmem_samples then
      (s.wmem_total : ℚ) / (s.wmem_samples : ℚ) / 1000
    else 0
  ({ send_bytes := s.send_bytes, drops := s.drops,
     avg_wmem_pressure := avg_wmem_pressure,
     softirq_ns := s.softirq_ns, event_count := s.event_count },
   { send_bytes := 0, drops := 0, wmem_samples := 0, wmem_total := 0,
     softirq_ns := 0, event_count := 0 })

/-- `should_sample_send` (`src/ebpf_congestion_signals_ebpf/src/main.rs` lines
38-48): read the per-CPU counter, write back `count.wrapping_add(1)`, return
`count % 100 == 0`.  `SEND_SAMPLE_STATE.get_ptr_mut(0)` on the 1-entry per-CPU
array always succeeds at runtime, so only the `Some` branch is modeled.
Result: (whether to emit, new counter value). -/
def should_sample_send (counter : Nat) : Bool × Nat :=
  ((counter % 100 == 0), (counter + 1) % U64)

/-- `try_udp_sendmsg` (main.rs lines 60-86): apply the sampling policy, then
emit a send record with the transfer length and protocol flag 0.  `ts`, `cpu`,
`sk`, `len` stand for `bpf_ktime_get_ns()`, the CPU id and the probed
arguments.  Result: (the emitted record, if any; new sampling counter). -/
def try_udp_sendmsg (counter ts cpu sk len : Nat) : Option CongestionEvent × Nat :=
  let sampled := should_sample_send counter
  if sampled.1 then
    (some { timestamp_ns := ts, event_type := EVENT_UDP_SEND, cpu_id := cpu,
            data := EventData.sendmsg
              { bytes := len, is_tcp := 0, socket_id := sk } },
     sampled.2)
  else (none, sampled.2)

/-- `try_tcp_sendmsg` (main.rs lines 96-122): same as UDP with discriminator 2
and protocol flag 1. -/
def try_tcp_sendmsg (counter ts cpu sk len : Nat) : Option CongestionEvent × Nat :=
  let sampled := should_sample_send counter
  if sampled.1 then
    (some { timestamp_ns := ts, event_type := EVENT_TCP_SEND, cpu_id := cpu,
            data := EventData.sendmsg
              { bytes := len, is_tcp := 1, socket_id := sk } },
     sampled.2)
  else (none, sampled.2)

/-- `try_skb_kfree` (main.rs lines 133-152): unconditionally (no sampling)
emit one drop record with `dropped := 1`. -/
def try_skb_kfree (ts cpu : Nat) : CongestionEvent :=
  { timestamp_ns := ts, event_type := EVENT_QDISC_DROP, cpu_id := cpu,
    data := EventData.qdisc
      { dropped := 1, backlog_bytes := 0, backlog_packets := 0 } }

/-- The `i32` → `u32` cast (`wmem_queued as u32`, `sndbuf as u32` in
`try_tcp_write_xmit`): two-complement reinterpretation. -/
def toU32 (i : Int) : Nat := (i % (2 ^ 32 : Int)).toNat

/-- `try_tcp_write_xmit` (main.rs lines 162-202): apply the sampling policy,
read `wmem_queued` and `sndbuf` from the kernel socket structure (a failed
read yields 0 via `unwrap_or(0)`, modeled by the `Option Int` arguments), and
emit a socket-state record. -/
def try_tcp_write_xmit (counter ts cpu sk : Nat) (wmem_read sndbuf_read : Option Int) :
    Option CongestionEvent × Nat :=
  let sampled := should_sample_send counter
  if sampled.1 then
    let wmem_queued : Int := wmem_read.getD 0
    let sndbuf : Int := sndbuf_read.getD 0
    (some { timestamp_ns := ts, event_type := EVENT_SOCKET_STATE, cpu_id := cpu,
            data := EventData.socket
              { wmem_queued := toU32 wmem_queued, sndbuf := toU32 sndbuf,
                socket_id := sk } },
     sampled.2)
  else (none, sampled.2)

/-- `try_softirq_entry` (main.rs lines 212-229): ignore vectors other than 2
and 3; for a tracked vector write the timestamp into the `SOFTIRQ_START`
per-CPU slot of that vector.  `st` is the per-CPU `SOFTIRQ_START` array
(index → stored start); the handler never emits a record.  Result: (emitted
record — always `none`; new scratch state). -/
def try_softirq_entry (st : Nat → Nat) (vec ts : Nat) :
    Option CongestionEvent × (Nat → Nat) :=
  if vec ≠ 2 ∧ vec ≠ 3 then (none, st)
  else (none, Function.update st vec ts)

/-- `try_softirq_exit` (main.rs lines 239-279): ignore untracked vectors; read
the stored start for the vector; if it is the sentinel 0, emit nothing;
otherwise emit a softirq-duration record with the wrapping `u64` difference
`exit_time - start_time`.  The scratch state is only read, never written. -/
def try_softirq_exit (st : Nat → Nat) (vec ts cpu : Nat) :
    Option CongestionEvent × (Nat → Nat) :=
  if vec ≠ 2 ∧ vec ≠ 3 then (none, st)
  else
    let start_time := st vec
    if 0 < start_time then
      (some { timestamp_ns := ts, event_type := EVENT_SOFTIRQ_EXIT, cpu_id := cpu,
              data := EventData.softirq
                { vec_nr := vec, duration_ns := (ts + U64 - start_time) % U64 } },
       st)
    else (none, st)

/-- The all-zero initial `SOFTIRQ_START` scratch state (per-CPU array
contents start zeroed). -/
def softirqStart0 : Nat → Nat := fun _ => 0

/-- `n` consecutive sampled-path send calls of transfer length `len` on one
CPU, starting from sampling counter `counter`: the list of emitted records
and the final counter. -/
def sendCalls : Nat → Nat → Nat → List CongestionEvent × Nat
  | 0, _, counter => ([], counter)
  | n + 1, len, counter =>
    let step := try_udp_sendmsg counter 0 0 0 len
    let rest := sendCalls n len step.2
    (step.1.toList ++ rest.1, rest.2)

/-- A socket-state record as emitted by `try_tcp_write_xmit` (scenario
helper). -/
def socketEvent (ts cpu wmem sndbuf sid : Nat) : CongestionEvent :=
  { timestamp_ns := ts, event_type := EVENT_SOCKET_STATE, cpu_id := cpu,
    data := EventData.socket
      { wmem_queued := wmem, sndbuf := sndbuf, socket_id := sid } }

/-- Number of drop records in a list of events. -/
def countDrops (l : List CongestionEvent) : Nat :=
  (l.filter (fun e => e.event_type == EVENT_QDISC_DROP)).length

/-- `size_of::<CongestionEvent>()` under `repr(C)`: `u64` at 0, two `u32` at
8 and 12, the 24-byte 8-aligned payload union at 16; total 40 bytes. -/
def CONGESTION_EVENT_SIZE : Nat := 40

/-- `plain::from_bytes::<CongestionEvent>` on a buffer of `buf_len` bytes
that, when long enough, reinterprets to the record `ev`: the length is
validated against the record size before any reinterpretation, and a short
buffer yields an error. -/
def from_bytes (buf_len : Nat) (ev : CongestionEvent) : Except Unit CongestionEvent :=
  if buf_len < CONGESTION_EVENT_SIZE then Except.error () else Except.ok ev

/-- One buffer-handling step of the consumption-task loop
(`start_collection`, lib.rs lines 175-181):
`plain::from_bytes::<CongestionEvent>(buf.as_ref()).unwrap()` followed by
`process_event`.  The `.unwrap()` panics on a decode error, aborting the
consuming task; the panic is modeled as `none`. -/
def consume_buffer (buf_len : Nat) (ev : CongestionEvent) (s : AtomicSignals) :
    Option AtomicSignals :=
  match from_bytes buf_len ev with
  | Except.ok e => some (process_event s e)
  | Except.error _ => none

/-- The five discriminator values that producers place on the wire. -/
def wireEventTypes : List Nat :=
  [EVENT_UDP_SEND, EVENT_TCP_SEND, EVENT_QDISC_DROP, EVENT_SOCKET_STATE,
   EVENT_SOFTIRQ_EXIT]

/-- An optional emitted record carries a wire discriminator. -/
def onWire (o : Option CongestionEvent) : Bool :=
  match o with
  | none => true
  | some ev => wireEventTypes.contains ev.event_type


lemma U64_pos : 0 < U64 := by norm_num [U64]

lemma pe_event_count (s : AtomicSignals) (e : CongestionEvent) :
    (process_event s e).event_count = (s.event_count + 1) % U64 := by
  simp only [process_event]
  split
  · rfl
  · split
    · rfl
    · split
      · split <;> rfl
      · split <;> rfl

lemma pe_drops (s : AtomicSignals) (e : CongestionEvent) :
    (process_event s e).drops =
      if e.event_type = EVENT_QDISC_DROP then (s.drops + 1) % U64 else s.drops := by
  simp only [process_event, EVENT_UDP_SEND, EVENT_TCP_SEND, EVENT_QDISC_DROP,
    EVENT_SOCKET_STATE, EVENT_SOFTIRQ_EXIT]
  split <;> rename_i h1
  · rcases h1 with h | h <;> simp [h]
  · split <;> rename_i h2
    · simp [h2]
    · split <;> rename_i h3
      · split <;> simp [h3]
      · split <;> rename_i h4
        · simp [h4]
        · simp [h2]

lemma pe_wmem (s : AtomicSignals) (e : CongestionEvent) :
    ((process_event s e).wmem_total = s.wmem_total ∧
     (process_event s e).wmem_samples = s.wmem_samples) ∨
    (e.event_type = EVENT_SOCKET_STATE ∧ 0 < e.data.socket_sndbuf ∧
     (process_event s e).wmem_total =
       (s.wmem_total + ((e.data.socket_wmem_queued * 1000) % U64) /
         e.data.socket_sndbuf) % U64 ∧
     (process_event s e).wmem_samples = (s.wmem_samples + 1) % U64) := by
  simp only [process_event, EVENT_UDP_SEND, EVENT_TCP_SEND, EVENT_QDISC_DROP,
    EVENT_SOCKET_STATE, EVENT_SOFTIRQ_EXIT]
  split
  · exact Or.inl ⟨rfl, rfl⟩
  · split
    · exact Or.inl ⟨rfl, rfl⟩
    · split <;> rename_i h3
      · split <;> rename_i h4
        · exact Or.inr ⟨h3, h4, rfl, rfl⟩
        · exact Or.inl ⟨rfl, rfl⟩
      · split <;> exact Or.inl ⟨rfl, rfl⟩

lemma countDrops_cons (e : CongestionEvent) (l : List CongestionEvent) :
    countDrops (e :: l) =
      (if e.event_type = EVENT_QDISC_DROP then 1 else 0) + countDrops l := by
  by_cases h : e.event_type = EVENT_QDISC_DROP <;>
    simp [countDrops, List.filter_cons, h, Nat.add_comm]

lemma processEvents_drops (l : List CongestionEvent) :
    ∀ s : AtomicSignals, s.drops < U64 →
      (processEvents s l).drops = (s.drops + countDrops l) % U64 := by
  induction l with
  | nil =>
    intro s hs
    simp [processEvents, countDrops, Nat.mod_eq_of_lt hs]
  | cons e l ih =>
    intro s hs
    have hstep : processEvents s (e :: l) = processEvents (process_event s e) l := rfl
    rw [hstep, countDrops_cons]
    have hd := pe_drops s e
    by_cases h : e.event_type = EVENT_QDISC_DROP
    · rw [ih (process_event s e) (by rw [hd, if_pos h]; exact Nat.mod_lt _ U64_pos)]
      rw [hd, if_pos h, if_pos h, Nat.mod_add_mod]
      congr 1
      omega
    · rw [ih (process_event s e) (by rw [hd, if_neg h]; exact hs)]
      rw [hd, if_neg h, if_neg h]
      congr 1
      omega

lemma rr_avg_pos (s : AtomicSignals) (h : 0 < s.wmem_samples) :
    (read_and_reset s).1.avg_wmem_pressure =
      (s.wmem_total : ℚ) / (s.wmem_samples : ℚ) / 1000 := by
  simp [read_and_reset, h]

lemma rr_avg_zero (s : AtomicSignals) (h : s.wmem_samples = 0) :
    (read_and_reset s).1.avg_wmem_pressure = 0 := by
  simp [read_and_reset, h]

/-- A per-mille pressure contribution of `process_event` — the value
`((queued * 1000) % 2^64) / limit` it adds to the pressure sum — is at most
1000 whenever queued is at most the (u32) limit. -/
lemma pressure_contribution_le (wmem sndbuf : Nat) (hw : wmem ≤ sndbuf)
    (hs : sndbuf < U32) : ((wmem * 1000) % U64) / sndbuf ≤ 1000 := by
  rcases Nat.eq_zero_or_pos sndbuf with h0 | hpos
  · subst h0
    have hz : wmem = 0 := Nat.le_zero.mp hw
    subst hz
    simp
  · have hmul : wmem * 1000 < U64 := by
      have hlt : wmem < U32 := Nat.lt_of_le_of_lt hw hs
      norm_num [U32] at hlt
      norm_num [U64]
      omega
    rw [Nat.mod_eq_of_lt hmul]
    calc wmem * 1000 / sndbuf
        ≤ sndbuf * 1000 / sndbuf :=
          Nat.div_le_div_right (Nat.mul_le_mul_right 1000 hw)
      _ = 1000 := Nat.mul_div_cancel_left 1000 hpos

lemma processEvents_wmem_bound (l : List CongestionEvent) :
    ∀ s : AtomicSignals,
      s.wmem_total ≤ 1000 * s.wmem_samples →
      s.wmem_samples + l.length < U64 →
      (∀ e ∈ l, e.event_type = EVENT_SOCKET_STATE →
        e.data.socket_wmem_queued ≤ e.data.socket_sndbuf ∧
        e.data.socket_sndbuf < U32) →
      (processEvents s l).wmem_total ≤ 1000 * (processEvents s l).wmem_samples ∧
      (processEvents s l).wmem_samples ≤ s.wmem_samples + l.length := by
  induction l with
  | nil =>
    intro s h1 _ _
    exact ⟨h1, Nat.le_refl _⟩
  | cons e l ih =>
    intro s h1 h2 h3
    have hstep : processEvents s (e :: l) = processEvents (process_event s e) l := rfl
    rw [hstep]
    rcases pe_wmem s e with ⟨ht, hsm⟩ | ⟨hty, hpos, ht, hsm⟩
    · have := ih (process_event s e)
        (by rw [ht, hsm]; exact h1)
        (by rw [hsm]; simp at h2; omega)
        (fun x hx => h3 x (List.mem_cons_of_mem e hx))
      rw [hsm] at this
      refine ⟨this.1, ?_⟩
      simp only [List.length_cons]
      omega
    · -- qualifying socket event
      obtain ⟨hw, hsn⟩ := h3 e (List.mem_cons_self e l) hty
      have hpress := pressure_contribution_le e.data.socket_wmem_queued
        e.data.socket_sndbuf hw hsn
      have hnos : (s.wmem_samples + 1) % U64 = s.wmem_samples + 1 := by
        apply Nat.mod_eq_of_lt
        simp only [List.length_cons] at h2
        omega
      have hinv : (process_event s e).wmem_total ≤
          1000 * (process_event s e).wmem_samples := by
        rw [ht, hsm, hnos]
        calc (s.wmem_total + ((e.data.socket_wmem_queued * 1000) % U64) /
              e.data.socket_sndbuf) % U64
            ≤ s.wmem_total + ((e.data.socket_wmem_queued * 1000) % U64) /
              e.data.socket_sndbuf := Nat.mod_le _ _
          _ ≤ 1000 * s.wmem_samples + 1000 := Nat.add_le_add h1 hpress
          _ = 1000 * (s.wmem_samples + 1) := by ring
      have := ih (process_event s e) hinv
        (by rw [hsm, hnos]; simp only [List.length_cons] at h2; omega)
        (fun x hx => h3 x (List.mem_cons_of_mem e hx))
      refine ⟨this.1, ?_⟩
      rw [hsm, hnos] at this
      simp only [List.length_cons]
      omega

/-- Claim C1: the sampling counter starts at 0; each call fires exactly when the
value read modulo 100 is 0 and advances the counter by 1 wrapping; 250
sampled-path send calls of length 10 from counter 0 emit exactly 3 records
and send_bytes in the next snapshot is 30. -/
theorem c1_sampling_policy :
    (∀ c : Nat, ((should_sample_send c).1 = true ↔ c % 100 = 0) ∧
      (should_sample_send c).2 = (c + 1) % U64) ∧
    (sendCalls 250 10 0).1.length = 3 ∧
    (sendCalls 250 10 0).2 = 250 ∧
    (read_and_reset (processEvents AtomicSignals.default
      (sendCalls 250 10 0).1)).1.send_bytes = 30 :=
  ⟨fun c => ⟨by simp [should_sample_send], rfl⟩, by decide, by decide, by decide⟩

/-- Claim C2: a socket-state event with positive limit adds queued*1000/limit to
wmem_pressure_sum and increments wmem_sample_count; limit 0 changes neither;
the snapshot average is (sum / count) / 1000 when count > 0 and 0 otherwise;
the two events (50,100) and (25,100) give average 0.375. -/
theorem c2_pressure_averaging :
    (∀ (s : AtomicSignals) (ts cpu wmem sndbuf sid : Nat),
      0 < sndbuf → wmem < U32 →
      process_event s (socketEvent ts cpu wmem sndbuf sid) =
        { send_bytes := s.send_bytes, drops := s.drops,
          wmem_samples := (s.wmem_samples + 1) % U64,
          wmem_total := (s.wmem_total + wmem * 1000 / sndbuf) % U64,
          softirq_ns := s.softirq_ns,
          event_count := (s.event_count + 1) % U64 }) ∧
    (∀ (s : AtomicSignals) (ts cpu wmem sid : Nat),
      process_event s (socketEvent ts cpu wmem 0 sid) =
        { s with event_count := (s.event_count + 1) % U64 }) ∧
    (∀ s : AtomicSignals, 0 < s.wmem_samples →
      (read_and_reset s).1.avg_wmem_pressure =
        (s.wmem_total : ℚ) / (s.wmem_samples : ℚ) / 1000) ∧
    (∀ s : AtomicSignals, s.wmem_samples = 0 →
      (read_and_reset s).1.avg_wmem_pressure = 0) ∧
    (read_and_reset (processEvents AtomicSignals.default
      [socketEvent 0 0 50 100 0, socketEvent 0 0 25 100 0])).1.avg_wmem_pressure
      = 0.375 := by
  refine ⟨?_, ?_, rr_avg_pos, rr_avg_zero, ?_⟩
  · intro s ts cpu wmem sndbuf sid hpos hw
    have hmul : wmem * 1000 < U64 := by
      norm_num [U32] at hw
      norm_num [U64]
      omega
    simp [process_event, socketEvent, EventData.socket_sndbuf,
      EventData.socket_wmem_queued, EVENT_UDP_SEND, EVENT_TCP_SEND,
      EVENT_QDISC_DROP, EVENT_SOCKET_STATE, EVENT_SOFTIRQ_EXIT, hpos,
      Nat.mod_eq_of_lt hmul]
  · intro s ts cpu wmem sid
    simp [process_event, socketEvent, EventData.socket_sndbuf,
      EVENT_UDP_SEND, EVENT_TCP_SEND, EVENT_QDISC_DROP, EVENT_SOCKET_STATE,
      EVENT_SOFTIRQ_EXIT]
  · have h : processEvents AtomicSignals.default
        [socketEvent 0 0 50 100 0, socketEvent 0 0 25 100 0] =
        { send_bytes := 0, drops := 0, wmem_samples := 2, wmem_total := 750,
          softirq_ns := 0, event_count := 2 } := by decide
    rw [h]
    simp only [read_and_reset]
    norm_num

/-- Claim C2 witness: the positive-limit update applied at a concrete input. -/
theorem c2_witness :
    (0 : Nat) < 100 ∧ (50 : Nat) < U32 ∧
    process_event AtomicSignals.default (socketEvent 0 0 50 100 0) =
      { send_bytes := 0, drops := 0, wmem_samples := (0 + 1) % U64,
        wmem_total := (0 + 50 * 1000 / 100) % U64, softirq_ns := 0,
        event_count := (0 + 1) % U64 } :=
  ⟨by decide, by decide,
   c2_pressure_averaging.1 AtomicSignals.default 0 0 50 100 0
     (by decide) (by decide)⟩

/-- Claim C3: read_and_reset zeroes all six raw counters and returns the captured
prior values; a second call with no intervening event processing returns
all-zero counters and average pressure 0. -/
theorem c3_snapshot_reset (s : AtomicSignals) :
    (read_and_reset s).2 = AtomicSignals.default ∧
    (read_and_reset s).1.send_bytes = s.send_bytes ∧
    (read_and_reset s).1.drops = s.drops ∧
    (read_and_reset s).1.softirq_ns = s.softirq_ns ∧
    (read_and_reset s).1.event_count = s.event_count ∧
    (read_and_reset (read_and_reset s).2).1.send_bytes = 0 ∧
    (read_and_reset (read_and_reset s).2).1.drops = 0 ∧
    (read_and_reset (read_and_reset s).2).1.softirq_ns = 0 ∧
    (read_and_reset (read_and_reset s).2).1.event_count = 0 ∧
    (read_and_reset (read_and_reset s).2).1.avg_wmem_pressure = 0 := by
  refine ⟨rfl, rfl, rfl, rfl, rfl, rfl, rfl, rfl, rfl, ?_⟩
  simp [read_and_reset]

/-- Claim C4: an entry at t0 > 0 on a tracked vector stores t0; a following exit
at t1 > t0 emits a duration record and softirq_ns after the next snapshot is
t1 - t0; an exit finding the sentinel 0, or on an untracked vector, emits
nothing and changes nothing. -/
theorem c4_softirq_duration (vec t0 t1 : Nat) (hvec : vec = 2 ∨ vec = 3)
    (h0 : 0 < t0) (h01 : t0 < t1) (h1 : t1 < U64) :
    (try_softirq_entry softirqStart0 vec t0).2 vec = t0 ∧
    (∃ ev : CongestionEvent,
      (try_softirq_exit (try_softirq_entry softirqStart0 vec t0).2 vec t1 0).1
        = some ev ∧
      ev.event_type = EVENT_SOFTIRQ_EXIT ∧
      ev.data.softirq_duration_ns = t1 - t0 ∧
      (read_and_reset (process_event AtomicSignals.default ev)).1.softirq_ns
        = t1 - t0) ∧
    try_softirq_exit softirqStart0 vec t1 0 = (none, softirqStart0) ∧
    (∀ (st : Nat → Nat) (v ts cpu : Nat), v ≠ 2 → v ≠ 3 →
      try_softirq_exit st v ts cpu = (none, st)) := by
  have hguard : ¬(vec ≠ 2 ∧ vec ≠ 3) := by rcases hvec with h | h <;> simp [h]
  have hentry : (try_softirq_entry softirqStart0 vec t0).2 =
      Function.update softirqStart0 vec t0 := by
    simp [try_softirq_entry, hguard]
  have hstore : (try_softirq_entry softirqStart0 vec t0).2 vec = t0 := by
    rw [hentry]; simp
  have hdur : (t1 + U64 - t0) % U64 = t1 - t0 := by
    have hx : t1 + U64 - t0 = (t1 - t0) + U64 := by omega
    rw [hx, Nat.add_mod_right]
    exact Nat.mod_eq_of_lt (by omega)
  refine ⟨hstore, ?_, ?_, ?_⟩
  · refine ⟨CongestionEvent.mk t1 EVENT_SOFTIRQ_EXIT 0
        (EventData.softirq (SoftirqData.mk vec (t1 - t0))), ?_, rfl, rfl, ?_⟩
    · simp [try_softirq_exit, hguard, hstore, h0, hdur]
    · have hproc : (process_event AtomicSignals.default
          (CongestionEvent.mk t1 EVENT_SOFTIRQ_EXIT 0
            (EventData.softirq (SoftirqData.mk vec (t1 - t0))))).softirq_ns
          = (0 + (t1 - t0)) % U64 := by
        simp [process_event, EVENT_UDP_SEND, EVENT_TCP_SEND, EVENT_QDISC_DROP,
          EVENT_SOCKET_STATE, EVENT_SOFTIRQ_EXIT, EventData.softirq_duration_ns,
          AtomicSignals.default]
      have hsnap : (read_and_reset (process_event AtomicSignals.default
          (CongestionEvent.mk t1 EVENT_SOFTIRQ_EXIT 0
            (EventData.softirq (SoftirqData.mk vec (t1 - t0)))))).1.softirq_ns
          = (0 + (t1 - t0)) % U64 := hproc
      rw [hsnap, Nat.zero_add]
      exact Nat.mod_eq_of_lt (by omega)
  · simp [try_softirq_exit, hguard, softirqStart0]
  · intro st v ts cpu hv2 hv3
    simp [try_softirq_exit, hv2, hv3]

/-- Claim C4 witness: vector 2, entry at 5, exit at 12. -/
theorem c4_witness :
    (2 = 2 ∨ 2 = 3) ∧ 0 < 5 ∧ 5 < 12 ∧ 12 < U64 ∧
    (∃ ev : CongestionEvent,
      (try_softirq_exit (try_softirq_entry softirqStart0 2 5).2 2 12 0).1
        = some ev ∧
      ev.event_type = EVENT_SOFTIRQ_EXIT ∧
      ev.data.softirq_duration_ns = 12 - 5 ∧
      (read_and_reset (process_event AtomicSignals.default ev)).1.softirq_ns
        = 12 - 5) :=
  ⟨Or.inl rfl, by decide, by decide, by decide,
   (c4_softirq_duration 2 5 12 (Or.inl rfl) (by decide) (by decide)
     (by decide)).2.1⟩

/-- Claim C5: the consuming task does not skip a truncated buffer: the decode
validates the length and fails on a short buffer, and the task step panics
(modeled none) instead of skipping and counting. -/
theorem c5_truncated_decode_aborts :
    (∀ ev : CongestionEvent, from_bytes 8 ev = Except.error ()) ∧
    (∀ (ev : CongestionEvent) (s : AtomicSignals),
      consume_buffer 8 ev s = none) :=
  ⟨fun _ => rfl, fun _ _ => rfl⟩

/-- Claim C6: every packet-free event unconditionally yields one drop record with
dropped = 1; each drop record adds exactly 1 to drops; 17 drop events in any
interleaving with other events yield drops = 17 in the next snapshot. -/
theorem c6_drop_precision :
    (∀ ts cpu : Nat, (try_skb_kfree ts cpu).event_type = EVENT_QDISC_DROP ∧
      (try_skb_kfree ts cpu).data.qdisc_dropped = 1) ∧
    (∀ (s : AtomicSignals) (e : CongestionEvent),
      e.event_type = EVENT_QDISC_DROP →
      (process_event s e).drops = (s.drops + 1) % U64) ∧
    (∀ l : List CongestionEvent, countDrops l = 17 →
      (read_and_reset (processEvents AtomicSignals.default l)).1.drops = 17) := by
  refine ⟨fun ts cpu => ⟨rfl, rfl⟩, ?_, ?_⟩
  · intro s e h
    rw [pe_drops, if_pos h]
  · intro l h
    have hd := processEvents_drops l AtomicSignals.default
      (by norm_num [AtomicSignals.default, U64])
    show (processEvents AtomicSignals.default l).drops = 17
    rw [hd, h]
    norm_num [AtomicSignals.default, U64]

/-- Claim C6 witness: 17 drop records processed from the reset state. -/
theorem c6_witness :
    countDrops (List.replicate 17 (try_skb_kfree 0 0)) = 17 ∧
    (read_and_reset (processEvents AtomicSignals.default
      (List.replicate 17 (try_skb_kfree 0 0)))).1.drops = 17 :=
  ⟨by decide, c6_drop_precision.2.2 _ (by decide)⟩

/-- Claim C7 counterexample: one socket-state event with queued 2000 and limit 1
drives the snapshot average pressure to 2000, outside 0..1, refuting the
claimed range. -/
theorem c7_range_counterexample :
    1 < (read_and_reset (processEvents AtomicSignals.default
      [socketEvent 0 0 2000 1 0])).1.avg_wmem_pressure := by
  have h : processEvents AtomicSignals.default [socketEvent 0 0 2000 1 0] =
      { send_bytes := 0, drops := 0, wmem_samples := 1, wmem_total := 2000000,
        softirq_ns := 0, event_count := 1 } := by decide
  rw [h]
  simp only [read_and_reset]
  norm_num

/-- Claim C7 amended: when every processed socket-state event has queued at most
the (u32) buffer limit, every per-mille contribution queued*1000/limit that
process_event adds to wmem_pressure_sum is at most 1000, and after processing
the raw counters satisfy wmem_pressure_sum at most 1000 times
wmem_sample_count — the integer form of the 0..1 range.  The bound is stated
on the raw counters because the program derives the average in f64, whose
rounding can exceed 1 by one ulp even under this condition (e.g. at 2^54 + 2
samples each contributing 1000). -/
theorem c7_range_amended (l : List CongestionEvent)
    (hlen : l.length < U64)
    (hok : ∀ e ∈ l, e.event_type = EVENT_SOCKET_STATE →
      e.data.socket_wmem_queued ≤ e.data.socket_sndbuf ∧
      e.data.socket_sndbuf < U32) :
    (∀ wmem sndbuf : Nat, wmem ≤ sndbuf → sndbuf < U32 →
      ((wmem * 1000) % U64) / sndbuf ≤ 1000) ∧
    (processEvents AtomicSignals.default l).wmem_total ≤
      1000 * (processEvents AtomicSignals.default l).wmem_samples := by
  refine ⟨fun wmem sndbuf hw hs => pressure_contribution_le wmem sndbuf hw hs, ?_⟩
  exact (processEvents_wmem_bound l AtomicSignals.default
    (by norm_num [AtomicSignals.default])
    (by simpa [AtomicSignals.default] using hlen) hok).1

/-- Claim C7 witness: a single in-range socket-state event. -/
theorem c7_witness :
    ([socketEvent 0 0 50 100 0] : List CongestionEvent).length < U64 ∧
    (processEvents AtomicSignals.default
      [socketEvent 0 0 50 100 0]).wmem_total ≤
      1000 * (processEvents AtomicSignals.default
        [socketEvent 0 0 50 100 0]).wmem_samples :=
  ⟨by decide, (c7_range_amended [socketEvent 0 0 50 100 0] (by decide)
    (by intro e he hty; simp at he; subst he; exact ⟨by decide, by decide⟩)).2⟩

/-- Claim C8: every record emitted by the six producers carries a discriminator in
{1, 2, 3, 4, 6}; the softirq-entry handler emits nothing; 5 is never on the
wire. -/
theorem c8_reserved_discriminator (c ts cpu sk len tc vec t : Nat)
    (wr sr : Option Int) (st : Nat → Nat) :
    onWire (try_udp_sendmsg c ts cpu sk len).1 = true ∧
    onWire (try_tcp_sendmsg c ts cpu sk len).1 = true ∧
    onWire (some (try_skb_kfree ts cpu)) = true ∧
    onWire (try_tcp_write_xmit c ts cpu sk wr sr).1 = true ∧
    (try_softirq_entry st vec t).1 = none ∧
    onWire (try_softirq_exit st vec t tc).1 = true ∧
    wireEventTypes.contains EVENT_SOFTIRQ_ENTER = false := by
  refine ⟨?_, ?_, rfl, ?_, ?_, ?_, by decide⟩
  · by_cases hs : (should_sample_send c).1 = true <;>
      simp [try_udp_sendmsg, hs, onWire, wireEventTypes, EVENT_UDP_SEND,
        EVENT_TCP_SEND, EVENT_QDISC_DROP, EVENT_SOCKET_STATE,
        EVENT_SOFTIRQ_EXIT]
  · by_cases hs : (should_sample_send c).1 = true <;>
      simp [try_tcp_sendmsg, hs, onWire, wireEventTypes, EVENT_UDP_SEND,
        EVENT_TCP_SEND, EVENT_QDISC_DROP, EVENT_SOCKET_STATE,
        EVENT_SOFTIRQ_EXIT]
  · by_cases hs : (should_sample_send c).1 = true <;>
      simp [try_tcp_write_xmit, hs, onWire, wireEventTypes, EVENT_UDP_SEND,
        EVENT_TCP_SEND, EVENT_QDISC_DROP, EVENT_SOCKET_STATE,
        EVENT_SOFTIRQ_EXIT]
  · unfold try_softirq_entry
    split <;> rfl
  · by_cases hg : vec ≠ 2 ∧ vec ≠ 3
    · simp [try_softirq_exit, hg, onWire]
    · by_cases hst : 0 < st vec
      · simp [try_softirq_exit, hg, hst, onWire, wireEventTypes,
          EVENT_UDP_SEND, EVENT_TCP_SEND, EVENT_QDISC_DROP,
          EVENT_SOCKET_STATE, EVENT_SOFTIRQ_EXIT]
      · simp [try_softirq_exit, hg, hst, onWire]

/-- Claim C9: every processed event advances event_count by one (wrapping u64);
an event with an unrecognized discriminator leaves the other five counters
unchanged. -/
theorem c9_unrecognized_frame (s : AtomicSignals) (e : CongestionEvent) :
    (process_event s e).event_count = (s.event_count + 1) % U64 ∧
    (e.event_type ∉ wireEventTypes →
      (process_event s e).send_bytes = s.send_bytes ∧
      (process_event s e).drops = s.drops ∧
      (process_event s e).wmem_total = s.wmem_total ∧
      (process_event s e).wmem_samples = s.wmem_samples ∧
      (process_event s e).softirq_ns = s.softirq_ns) := by
  refine ⟨pe_event_count s e, fun h => ?_⟩
  simp only [wireEventTypes, EVENT_UDP_SEND, EVENT_TCP_SEND, EVENT_QDISC_DROP,
    EVENT_SOCKET_STATE, EVENT_SOFTIRQ_EXIT, List.mem_cons,
    List.not_mem_nil, or_false] at h
  push_neg at h
  obtain ⟨h1, h2, h3, h4, h6⟩ := h
  simp [process_event, EVENT_UDP_SEND, EVENT_TCP_SEND, EVENT_QDISC_DROP,
    EVENT_SOCKET_STATE, EVENT_SOFTIRQ_EXIT, h1, h2, h3, h4, h6]

/-- Claim C9 witness: the reserved discriminator 5 at the reset state. -/
theorem c9_witness :
    ((5 : Nat) ∉ wireEventTypes) ∧
    (process_event AtomicSignals.default
      { timestamp_ns := 0, event_type := 5, cpu_id := 0,
        data := EventData.qdisc
          { dropped := 0, backlog_bytes := 0, backlog_packets := 0 } }).send_bytes
      = AtomicSignals.default.send_bytes :=
  ⟨by decide,
   ((c9_unrecognized_frame AtomicSignals.default
      { timestamp_ns := 0, event_type := 5, cpu_id := 0,
        data := EventData.qdisc
          { dropped := 0, backlog_bytes := 0, backlog_packets := 0 } }).2
      (by decide)).1⟩

/-- Claim C10: the softirq-exit handler never writes the start slot, so after one
entry at t0 every further exit without a new entry still reads t0 and emits
a duration computed from t0. -/
theorem c10_exit_never_writes (vec t0 t1 t2 : Nat) (hvec : vec = 2 ∨ vec = 3)
    (h0 : 0 < t0) (h02 : t0 < t2) (hu2 : t2 < U64) :
    (∀ (st : Nat → Nat) (v ts cpu : Nat),
      (try_softirq_exit st v ts cpu).2 = st) ∧
    (try_softirq_exit (try_softirq_entry softirqStart0 vec t0).2 vec t1 0).2 vec
      = t0 ∧
    (∃ ev2 : CongestionEvent,
      (try_softirq_exit
        (try_softirq_exit (try_softirq_entry softirqStart0 vec t0).2 vec t1 0).2
        vec t2 0).1 = some ev2 ∧
      ev2.event_type = EVENT_SOFTIRQ_EXIT ∧
      ev2.data.softirq_duration_ns = t2 - t0) := by
  have hguard : ¬(vec ≠ 2 ∧ vec ≠ 3) := by rcases hvec with h | h <;> simp [h]
  have hpres : ∀ (st : Nat → Nat) (v ts cpu : Nat),
      (try_softirq_exit st v ts cpu).2 = st := by
    intro st v ts cpu
    by_cases hg : v ≠ 2 ∧ v ≠ 3
    · simp [try_softirq_exit, hg]
    · by_cases hst : 0 < st v
      · simp [try_softirq_exit, hg, hst]
      · simp [try_softirq_exit, hg, hst]
  have hstore : (try_softirq_entry softirqStart0 vec t0).2 vec = t0 := by
    simp [try_softirq_entry, hguard]
  have hkeep : (try_softirq_exit (try_softirq_entry softirqStart0 vec t0).2
      vec t1 0).2 vec = t0 := by
    rw [hpres]; exact hstore
  have hdur : (t2 + U64 - t0) % U64 = t2 - t0 := by
    have hx : t2 + U64 - t0 = (t2 - t0) + U64 := by omega
    rw [hx, Nat.add_mod_right]
    exact Nat.mod_eq_of_lt (by omega)
  refine ⟨hpres, hkeep, ?_⟩
  refine ⟨CongestionEvent.mk t2 EVENT_SOFTIRQ_EXIT 0
      (EventData.softirq (SoftirqData.mk vec (t2 - t0))), ?_, rfl, rfl⟩
  rw [hpres]
  simp [try_softirq_exit, hguard, hstore, h0, hdur]

/-- Claim C10 witness: vector 2, entry at 5, exits at 7 and 9. -/
theorem c10_witness :
    (2 = 2 ∨ 2 = 3) ∧ 0 < 5 ∧ 5 < 9 ∧ 9 < U64 ∧
    (∃ ev2 : CongestionEvent,
      (try_softirq_exit
        (try_softirq_exit (try_softirq_entry softirqStart0 2 5).2 2 7 0).2
        2 9 0).1 = some ev2 ∧
      ev2.event_type = EVENT_SOFTIRQ_EXIT ∧
      ev2.data.softirq_duration_ns = 9 - 5) :=
  ⟨Or.inl rfl, by decide, by decide, by decide,
   (c10_exit_never_writes 2 5 7 9 (Or.inl rfl) (by decide) (by decide)
     (by decide)).2.2⟩

end AdaptiveQuic
